import Mathlib

/-!
Verification development for the batchglm training core.

The definitions below are shallow embeddings of the Python sources:

* `src/batchglm/train/tf/nb/util.py` (NegativeBinomial constructor dispatch,
  `fit_mme`, `fit` with `optimizable=True`),
* `src/batchglm/train/tf/base/estimator.py` (`should_stop`,
  `_train_to_convergence`, the `all_converged_ll` training loop,
  `MonitoredTFEstimator.initialize` validation, `TFEstimator.get` validation,
  the `train` criterion dispatch),
* `src/batchglm/train/tf/base_glm_all/hessians.py` (`hessian_analytic`).

Machine floats are modelled by rationals; the numpy special values
`inf` and `nan`, which the loss-history buffers of the training loop use as
initial markers, are modelled explicitly by the `NpVal` type.
-/

/-- Model of a numpy float value as used in the loss-history buffers of
`_train_to_convergence`: a finite value, positive or negative infinity
(`np.inf` is the initial buffer content), or `nan`. -/
inductive NpVal where
  | fin (q : ℚ)
  | inf
  | neginf
  | nan
deriving DecidableEq

/-- Negation of a numpy value. -/
def NpVal.neg : NpVal → NpVal
  | .fin q => .fin (-q)
  | .inf => .neginf
  | .neginf => .inf
  | .nan => .nan

/-- Addition of numpy values: infinities absorb finite values and
opposite infinities give `nan`; `nan` propagates. -/
def NpVal.add : NpVal → NpVal → NpVal
  | .nan, _ => .nan
  | _, .nan => .nan
  | .fin p, .fin q => .fin (p + q)
  | .fin _, .inf => .inf
  | .fin _, .neginf => .neginf
  | .inf, .fin _ => .inf
  | .inf, .inf => .inf
  | .inf, .neginf => .nan
  | .neginf, .fin _ => .neginf
  | .neginf, .inf => .nan
  | .neginf, .neginf => .neginf

/-- Subtraction of numpy values. -/
def NpVal.sub (a b : NpVal) : NpVal := NpVal.add a (NpVal.neg b)

/-- Division of a numpy value by a natural number (used for `np.mean`):
the mean of an empty array is `nan`. -/
def NpVal.divNat : NpVal → ℕ → NpVal
  | _, 0 => .nan
  | .fin q, n => .fin (q / n)
  | .inf, _ + 1 => .inf
  | .neginf, _ + 1 => .neginf
  | .nan, _ + 1 => .nan

/-- Division of numpy values, used by the `scaled_moving_average` branch.
Division of a nonzero finite value by zero gives a signed infinity,
`0 / 0` gives `nan`, division by an infinity gives zero. -/
def NpVal.div : NpVal → NpVal → NpVal
  | .nan, _ => .nan
  | _, .nan => .nan
  | .fin p, .fin q =>
      if q = 0 then (if p = 0 then .nan else if 0 < p then .inf else .neginf)
      else .fin (p / q)
  | .fin _, .inf => .fin 0
  | .fin _, .neginf => .fin 0
  | .inf, .fin q => if 0 ≤ q then .inf else .neginf
  | .neginf, .fin q => if 0 ≤ q then .neginf else .inf
  | .inf, .inf => .nan
  | .inf, .neginf => .nan
  | .neginf, .inf => .nan
  | .neginf, .neginf => .nan

/-- Strict comparison of numpy values; any comparison involving `nan`
is false, as in IEEE arithmetic. -/
def NpVal.blt : NpVal → NpVal → Bool
  | .nan, _ => false
  | _, .nan => false
  | .fin p, .fin q => decide (p < q)
  | .fin _, .inf => true
  | .fin _, .neginf => false
  | .inf, _ => false
  | .neginf, .fin _ => true
  | .neginf, .inf => true
  | .neginf, .neginf => false

/-- Absolute value of a numpy value. -/
def NpVal.abs : NpVal → NpVal
  | .fin q => .fin |q|
  | .inf => .inf
  | .neginf => .inf
  | .nan => .nan

/-- Test for `np.isinf` (true for both infinities, false for `nan`). -/
def NpVal.isInf : NpVal → Bool
  | .inf => true
  | .neginf => true
  | _ => false

/-- Sum of a list of numpy values, as `np.sum` computes it. -/
def npSum (xs : List NpVal) : NpVal := xs.foldl NpVal.add (NpVal.fin 0)

/-- Mean of a list of numpy values, as `np.mean` computes it. -/
def npMean (xs : List NpVal) : NpVal := NpVal.divNat (npSum xs) xs.length

/-- Shallow embedding of the local function `should_stop` of
`TFEstimator._train_to_convergence` (estimator.py lines 102-127).
`welch` stands for the external `stat_utils.welch_t_test`, which is not part
of the sources; it is kept abstract as a function argument returning the
p-value.  When the criterion matches none of the implemented names the
Python function falls through and implicitly returns `None`, which is falsy
at the call site `if should_stop(train_step): break`; that path is
modelled as `false`. -/
def should_stop (welch : List NpVal → List NpVal → ℚ)
    (convergence_criteria : String) (stopping_criteria : ℚ)
    (previous_loss_hist loss_hist : List NpVal) (step : ℕ) : Bool :=
  if step % loss_hist.length = 0 ∧ previous_loss_hist.any NpVal.isInf = false then
    if convergence_criteria = "loss_change_to_last" then
      let change := NpVal.sub ((loss_hist.get? (loss_hist.length - 2)).getD NpVal.nan)
                              ((loss_hist.get? (loss_hist.length - 1)).getD NpVal.nan)
      NpVal.blt change (NpVal.fin stopping_criteria)
    else if convergence_criteria = "moving_average" then
      let change := NpVal.sub (npMean previous_loss_hist) (npMean loss_hist)
      NpVal.blt change (NpVal.fin stopping_criteria)
    else if convergence_criteria = "scaled_moving_average" then
      let change := NpVal.div (NpVal.sub (npMean previous_loss_hist) (npMean loss_hist))
                              (npMean previous_loss_hist)
      NpVal.blt change (NpVal.fin stopping_criteria)
    else if convergence_criteria = "absolute_moving_average" then
      let change := NpVal.abs (NpVal.sub (npMean previous_loss_hist) (npMean loss_hist))
      NpVal.blt change (NpVal.fin stopping_criteria)
    else if convergence_criteria = "t_test" then
      !(decide (welch previous_loss_hist loss_hist < stopping_criteria))
    else
      false
  else
    false

/-- State of the `_train_to_convergence` loop: the two rolling loss-history
buffers and the global step counter. -/
structure TrainState where
  previous_loss_hist : List NpVal
  loss_hist : List NpVal
  step : ℕ
deriving DecidableEq

/-- One iteration of the `while True` loop of `_train_to_convergence`
(estimator.py lines 136-160), given the global loss value observed this
step: the step counter advances, `previous_loss_hist` is overwritten with a
copy of `loss_hist` on every `N+1`-st step, and the current loss is written
into slot `(train_step - 1) % N` of `loss_hist`. -/
def train_loop_step (st : TrainState) (global_loss : ℚ) : TrainState :=
  let train_step := st.step + 1
  let prev := if train_step % st.loss_hist.length = 1 then st.loss_hist
              else st.previous_loss_hist
  let hist := st.loss_hist.set ((train_step - 1) % st.loss_hist.length) (NpVal.fin global_loss)
  ⟨prev, hist, train_step⟩

/-- Initial state of `_train_to_convergence`: both loss-history buffers are
filled with `np.inf` (estimator.py lines 99-100). -/
def train_init_state (loss_window_size : ℕ) : TrainState :=
  ⟨List.replicate loss_window_size NpVal.inf,
   List.replicate loss_window_size NpVal.inf, 0⟩

/-- Run the `_train_to_convergence` loop state through a sequence of
observed global losses. -/
def run_train (loss_window_size : ℕ) (losses : List ℚ) : TrainState :=
  losses.foldl train_loop_step (train_init_state loss_window_size)

/-- The two ValueError messages of `NegativeBinomial.__init__`
(nb/util.py lines 22, 29, 35, 57). -/
inductive NBError where
  | mustPassProbsLogitsOrMean
  | mustPassShapeROrVariance
deriving DecidableEq

/-- Which reparametrization branch of `NegativeBinomial.__init__` a call
takes when it does not raise (nb/util.py lines 27-75). -/
inductive NBBranch where
  | fromVarianceMean
  | fromVarianceLogits
  | fromRMean
  | fromRLogits
deriving DecidableEq

/-- Continuation of `NegativeBinomial.__init__` after the `p` guard and the
`probs` reassignment (nb/util.py lines 27-75): dispatch on which of `r`,
`logits`, `mean`, `variance` were supplied, raising where the source
raises.  The numeric reparametrization values themselves are side effects
of the chosen branch and are not needed by any claim, so only the branch
marker is returned. -/
def nbInitCont (r variance probs logits mean : Option ℚ) (logitF : ℚ → ℚ) :
    Except NBError NBBranch :=
  let logits := if probs.isSome then probs.map logitF else logits
  match r with
  | none =>
    match variance with
    | none => Except.error NBError.mustPassShapeROrVariance
    | some _ =>
      match logits with
      | none =>
        match mean with
        | none => Except.error NBError.mustPassProbsLogitsOrMean
        | some _ => Except.ok NBBranch.fromVarianceMean
      | some _ => Except.ok NBBranch.fromVarianceLogits
  | some _ =>
    match logits with
    | none =>
      match mean with
      | none => Except.error NBError.mustPassProbsLogitsOrMean
      | some _ => Except.ok NBBranch.fromRMean
    | some _ => Except.ok NBBranch.fromRLogits

/-- Shallow embedding of the constructor dispatch of
`NegativeBinomial.__init__` (nb/util.py lines 15-77).  `logitF` stands for
the external helper `logit` from `batchglm.train.tf.ops`, which is not part
of the sources.  Note the guard structure at lines 20-23: the outer test is
`if p is not None` and the inner test re-checks `p is not None` (instead of
another parameter) before raising, so the `probs = p` aliasing line below
the raise is unreachable. -/
def nbInit (total_count r variance p probs logits mean : Option ℚ)
    (logitF : ℚ → ℚ) : Except NBError NBBranch :=
  let r := if total_count.isSome then total_count else r
  if p.isSome then
    if p.isSome then Except.error NBError.mustPassProbsLogitsOrMean
    else nbInitCont r variance p logits mean logitF
  else nbInitCont r variance probs logits mean logitF

/-- Modelled from the spec: the helper `reduce_weighted_mean` lives in
`batchglm/train/tf/ops`, which is not among the sources.  The spec (section
4.1) says: mean = weighted average of X, and without weights the plain
average. -/
def reduce_weighted_mean (xs : List ℚ) (weights : Option (List ℚ)) : ℚ :=
  match weights with
  | none => xs.sum / xs.length
  | some w => (List.zipWith (fun a b => a * b) w xs).sum / w.sum

/-- Shallow embedding of `fit_mme` (nb/util.py lines 303-335) for one
feature column of `X`: the weighted mean and the weighted variance of the
observations are computed, `replace_values` defaults to the maximum
representable value of the dtype (`dtype_max`), and `r` is
`mean * mean / (variance - mean)` where `tf.less(mean, variance)` holds and
the replacement value elsewhere.  The function ends by constructing
`NegativeBinomial(r=r, mean=mean)`; the result carries the `(r, mean)` pair
(the `logit` helper is never applied on this path because `probs` is
`None`). -/
def fit_mme (xs : List ℚ) (weights : Option (List ℚ))
    (replace_values : Option ℚ) (dtype_max : ℚ) : Except NBError (ℚ × ℚ) :=
  let mean := reduce_weighted_mean xs weights
  let variance := reduce_weighted_mean (xs.map fun x => (x - mean) * (x - mean)) weights
  let rv := replace_values.getD dtype_max
  let r := if mean < variance then mean * mean / (variance - mean) else rv
  (nbInit none (some r) none none none none (some mean) id).map fun _ => (r, mean)

/-- Embedding of `tf.clip_by_value`: clamp `x` into `[lo, hi]`. -/
def clip_by_value (x lo hi : ℚ) : ℚ := min (max x lo) hi

/-- The initial-value clip of the `optimizable` branch of `fit`
(nb/util.py lines 268-272 and 283-287): the log of the moment estimate is
clipped to `[np.log(1), np.log(dtype.max) / 8]` before it becomes the
initial value of the mutable `log_r` / `log_mu` variable.
`log_dtype_max` stands for `np.log(dtype.max)`; `np.log(1) = 0`. -/
def optimizable_log_init (log_value log_dtype_max : ℚ) : ℚ :=
  clip_by_value log_value 0 (log_dtype_max / 8)

/-- The read clip of the `optimizable` branch of `fit`
(nb/util.py lines 276-281 and 291-296): the current value of the mutable
`log_r` / `log_mu` variable is clipped to
`[np.log(np.nextafter(0, 1)), np.log(dtype.max)]` and then exponentiated.
`log_smallest_pos` stands for `np.log(np.nextafter(0, 1))` and
`log_dtype_max` for `np.log(dtype.max)`. -/
def optimizable_log_read (var_value log_smallest_pos log_dtype_max : ℚ) : ℚ :=
  clip_by_value var_value log_smallest_pos log_dtype_max

/-- The per-feature convergence-status update of one iteration of the
`all_converged_ll` branch of `TFEstimator.train`
(estimator.py lines 348-403).  Per feature `f`:
`ll_converged` is the relative-loss-plateau test,
the first disjunct ORs `converged_prev` with plateau-and-updated
(lines 354-357), the second disjunct ORs in the gradient-norm test with no
`features_updated` requirement (lines 382-388), and, because the branch is
only entered for criterion `all_converged_ll`, the parameter-step-norm test
is additionally ORed in (lines 389-403).  The gradient and step norms are
computed upstream from session tensors and enter here as inputs. -/
def converged_update (convergence_criteria : String)
    (stopping_criteria gtol_loc gtol_scale xtol_loc xtol_scale : ℚ)
    (n : ℕ) (converged_prev features_updated : Fin n → Bool)
    (ll_prev ll_current grad_norm_loc grad_norm_scale x_norm_loc x_norm_scale :
      Fin n → ℚ) : Fin n → Bool :=
  fun f =>
    let ll_converged : Bool :=
      decide ((ll_prev f - ll_current f) / ll_prev f < stopping_criteria)
    let c1 : Bool := converged_prev f || (ll_converged && features_updated f)
    let c2 : Bool := c1 ||
      (decide (grad_norm_loc f < gtol_loc) && decide (grad_norm_scale f < gtol_scale))
    if convergence_criteria = "all_converged_ll" then
      c2 || (decide (x_norm_loc f < xtol_loc) && decide (x_norm_scale f < xtol_scale))
    else c2

/-- Data observed by one iteration of the `all_converged_ll` loop that
comes out of session runs: which features were actually updated, the new
per-feature normalized negative log-likelihood, and the per-feature
gradient and parameter-step norms. -/
structure IterData (n : ℕ) where
  features_updated : Fin n → Bool
  ll_current : Fin n → ℚ
  grad_norm_loc : Fin n → ℚ
  grad_norm_scale : Fin n → ℚ
  x_norm_loc : Fin n → ℚ
  x_norm_scale : Fin n → ℚ

/-- Loop-carried state of the `all_converged_ll` branch: the converged mask
and the previous log-likelihood vector (`ll_prev = ll_current.copy()` at
the start of each iteration, estimator.py line 273). -/
structure LoopState (n : ℕ) where
  converged : Fin n → Bool
  ll : Fin n → ℚ

/-- One iteration of the `all_converged_ll` loop at the level of the
convergence bookkeeping: the converged mask is updated by
`converged_update` from the previous mask and the freshly observed
iteration data, and the log-likelihood vector is carried over. -/
def train_iteration (convergence_criteria : String)
    (stopping_criteria gtol_loc gtol_scale xtol_loc xtol_scale : ℚ)
    (n : ℕ) (st : LoopState n) (it : IterData n) : LoopState n :=
  ⟨converged_update convergence_criteria stopping_criteria gtol_loc gtol_scale
      xtol_loc xtol_scale n st.converged it.features_updated st.ll it.ll_current
      it.grad_norm_loc it.grad_norm_scale it.x_norm_loc it.x_norm_scale,
   it.ll_current⟩

/-- One training stage of the `all_converged_ll` branch: the converged mask
is re-initialized to all-false before the first iteration
(estimator.py lines 268-269) and the iterations are folded in order. -/
def stage_run (convergence_criteria : String)
    (stopping_criteria gtol_loc gtol_scale xtol_loc xtol_scale : ℚ)
    (n : ℕ) (ll_init : Fin n → ℚ) (iters : List (IterData n)) : LoopState n :=
  iters.foldl
    (train_iteration convergence_criteria stopping_criteria gtol_loc gtol_scale
      xtol_loc xtol_scale n)
    ⟨fun _ => false, ll_init⟩

/-- The fused block contraction of `hessian_analytic`
(hessians.py lines 50-52, 76-78, 111-113): for each feature `f`,
`Hblock[f][c][d] = sum over observations o of W[o][f] * XH1[o][c] * XH2[o][d]`,
which is what the nested `tf.einsum` pair computes without materializing
the four-index tensor. -/
def hessian_block (no nf p q : ℕ) (W : Fin no → Fin nf → ℚ)
    (XH1 : Fin no → Fin p → ℚ) (XH2 : Fin no → Fin q → ℚ) :
    Fin nf → Fin p → Fin q → ℚ :=
  fun f c d => Finset.univ.sum fun o => W o f * XH1 o c * XH2 o d

/-- The constraint projection of the design matrix
(hessians.py lines 45-48, 71-74, 101-109): when a constraint matrix is set,
`XH = design @ constraints`; otherwise `XH` is the design matrix itself.
`hessian_analytic` below takes the already projected `XH` matrices. -/
def constrained_design (no p q : ℕ) (design : Fin no → Fin p → ℚ)
    (constraints : Fin p → Fin q → ℚ) : Fin no → Fin q → ℚ :=
  fun o c => Finset.univ.sum fun k => design o k * constraints k c

/-- Result shape of `hessian_analytic` (hessians.py lines 116-133): the
full two-part Hessian when both parts are trained, a single diagonal block
when only one part is trained, and the scalar `tf.zeros(())` otherwise.
Concatenation along the coefficient axes is modelled by indexing with
`Fin pa ⊕ Fin pb` (left summand = location coefficients, right summand =
dispersion coefficients). -/
inductive HessianResult (nf pa pb : ℕ) where
  | full (H : Fin nf → (Fin pa ⊕ Fin pb) → (Fin pa ⊕ Fin pb) → ℚ)
  | aaOnly (H : Fin nf → Fin pa → Fin pa → ℚ)
  | bbOnly (H : Fin nf → Fin pb → Fin pb → ℚ)
  | zeroScalar

/-- Shallow embedding of `HessianGLMALL.hessian_analytic`
(hessians.py lines 16-133).  `Waa`, `Wbb`, `Wab` are the three per-
observation per-feature weight kinds produced by `_weight_hessian_aa` /
`_bb` / `_ab` (defined in the likelihood-family layer, outside these
sources); `XHloc` / `XHscale` are the (possibly constraint-projected)
design matrices.  When both parts are trained, the blocks `H_aa`, `H_bb`
and `H_ab` are computed by the fused contraction, `H_ba` is obtained from
`H_ab` by `tf.transpose(H_ab, perm=[0, 2, 1])`, and the four blocks are
concatenated into the full matrix. -/
def hessian_analytic (no nf pa pb : ℕ) (Waa Wbb Wab : Fin no → Fin nf → ℚ)
    (XHloc : Fin no → Fin pa → ℚ) (XHscale : Fin no → Fin pb → ℚ)
    (compute_a compute_b : Bool) : HessianResult nf pa pb :=
  if compute_a && compute_b then
    let H_aa := hessian_block no nf pa pa Waa XHloc XHloc
    let H_bb := hessian_block no nf pb pb Wbb XHscale XHscale
    let H_ab := hessian_block no nf pa pb Wab XHloc XHscale
    let H_ba := fun f c d => H_ab f d c
    HessianResult.full (fun f i j =>
      match i, j with
      | Sum.inl c, Sum.inl d => H_aa f c d
      | Sum.inl c, Sum.inr d => H_ab f c d
      | Sum.inr c, Sum.inl d => H_ba f c d
      | Sum.inr c, Sum.inr d => H_bb f c d)
  else if compute_a && !compute_b then
    HessianResult.aaOnly (hessian_block no nf pa pa Waa XHloc XHloc)
  else if !compute_a && compute_b then
    HessianResult.bbOnly (hessian_block no nf pb pb Wbb XHscale XHscale)
  else
    HessianResult.zeroScalar

/-- The 2 x 2 block matrix the spec describes for the both-parts-trained
case: aa and bb on the diagonal, ab above the diagonal and the transpose of
ab below it. -/
def hessian_full_spec (no nf pa pb : ℕ) (Waa Wbb Wab : Fin no → Fin nf → ℚ)
    (XHloc : Fin no → Fin pa → ℚ) (XHscale : Fin no → Fin pb → ℚ) :
    Fin nf → (Fin pa ⊕ Fin pb) → (Fin pa ⊕ Fin pb) → ℚ :=
  fun f i j =>
    match i, j with
    | Sum.inl c, Sum.inl d => hessian_block no nf pa pa Waa XHloc XHloc f c d
    | Sum.inl c, Sum.inr d => hessian_block no nf pa pb Wab XHloc XHscale f c d
    | Sum.inr c, Sum.inl d => hessian_block no nf pa pb Wab XHloc XHscale f d c
    | Sum.inr c, Sum.inr d => hessian_block no nf pb pb Wbb XHscale XHscale f c d

/-- The argument validation of `MonitoredTFEstimator.initialize`
(estimator.py lines 517-529): with no `working_dir` but any
checkpoint/summary/export action requested, a ValueError is raised before
any session is created. -/
def init_validate (working_dir : Option String)
    (save_checkpoint_steps save_checkpoint_secs save_summaries_steps
     save_summaries_secs export_steps export_secs : Option ℕ) :
    Except String Unit :=
  if working_dir.isNone &&
      !([save_checkpoint_steps, save_checkpoint_secs, save_summaries_steps,
         save_summaries_secs, export_steps, export_secs].all Option.isNone) then
    Except.error "No working_dir provided but actions saving data requested"
  else Except.ok ()

/-- The key validation of `TFEstimator.get` (estimator.py lines 67-81):
a single key or each key of an iterable must occur in `param_shapes()`,
otherwise a ValueError is raised before anything is fetched. -/
def get_check (param_shapes : List String) (key : String ⊕ List String) :
    Except String Unit :=
  match key with
  | Sum.inl k =>
    if param_shapes.contains k then Except.ok ()
    else Except.error ("Unknown parameter " ++ k)
  | Sum.inr ks =>
    match ks.find? (fun k => !param_shapes.contains k) with
    | some k => Except.error ("Unknown parameter " ++ k)
    | none => Except.ok ()

/-- The three code paths `TFEstimator.train` dispatches a convergence
criterion name to (estimator.py lines 224, 252, 431): the `step` counter
loop, the `all_converged_ll` per-feature loop, or `_train_to_convergence`
for everything else.  `configError` is the dispatch outcome the spec
expects for an unknown name; the source has no raising path, so
`train_branch` never produces it. -/
inductive TrainBranch where
  | stepCriterion
  | allConvergedLL
  | toConvergence
  | configError
deriving DecidableEq

/-- Criterion dispatch of `TFEstimator.train`: any name other than `step`
and `all_converged_ll` falls through to `_train_to_convergence`. -/
def train_branch (convergence_criteria : String) : TrainBranch :=
  if convergence_criteria = "step" then TrainBranch.stepCriterion
  else if convergence_criteria = "all_converged_ll" then TrainBranch.allConvergedLL
  else TrainBranch.toConvergence

/-- C10: every call of the NegativeBinomial constructor that passes a
non-None value for `p` raises ValueError unconditionally, because the
inner guard re-tests `p is not None` instead of another parameter; the
documented `p` alias for `probs` can therefore never be used. -/
theorem C10_p_alias_always_raises
    (total_count r variance p probs logits mean : Option ℚ) (logitF : ℚ → ℚ)
    (hp : p.isSome = true) :
    nbInit total_count r variance p probs logits mean logitF =
      Except.error NBError.mustPassProbsLogitsOrMean := by
  simp [nbInit, hp]

/-- Witness for C10: passing `p` together with an otherwise valid
`(r, mean)` parameter pair still raises. -/
theorem C10_witness :
    nbInit none (some 10) none (some (1 / 2)) none none (some 3) id =
      Except.error NBError.mustPassProbsLogitsOrMean :=
  C10_p_alias_always_raises none (some 10) none (some (1 / 2)) none none (some 3) id rfl

/-- C1: per feature, `fit_mme` returns `r = mean * mean / (variance - mean)`
whenever the weighted variance is strictly greater than the weighted mean,
and otherwise the caller-supplied `replace_values` or, by default, the
maximum representable value of the dtype; both cases also construct the
result distribution without raising. -/
theorem C1_fit_mme_moment_estimator (xs : List ℚ) (weights : Option (List ℚ))
    (replace_values : Option ℚ) (dtype_max : ℚ) (mean variance : ℚ)
    (hm : mean = reduce_weighted_mean xs weights)
    (hv : variance =
      reduce_weighted_mean (xs.map fun x => (x - mean) * (x - mean)) weights) :
    (mean < variance →
      fit_mme xs weights replace_values dtype_max =
        Except.ok (mean * mean / (variance - mean), mean))
    ∧ (variance ≤ mean →
      fit_mme xs weights replace_values dtype_max =
        Except.ok (replace_values.getD dtype_max, mean)) := by
  subst hm
  constructor
  · intro h
    simp only [fit_mme]
    rw [← hv, if_pos h]
    simp [nbInit, nbInitCont, Except.map]
  · intro h
    simp only [fit_mme]
    rw [← hv, if_neg (not_lt.mpr h)]
    simp [nbInit, nbInitCont, Except.map]

/-- Witness for C1: for the column `[0, 2, 4]` the mean is `2`, the
variance is `8/3 > 2`, and the moment estimator gives `r = 6`. -/
theorem C1_witness :
    fit_mme [0, 2, 4] none none 100 = Except.ok ((6 : ℚ), (2 : ℚ)) := by
  have h := (C1_fit_mme_moment_estimator [0, 2, 4] none none 100 2 (8 / 3)
    (by norm_num [reduce_weighted_mean]) (by norm_num [reduce_weighted_mean])).1
    (by norm_num)
  rw [h]
  norm_num

/-- C9 counterexample: the claim says the mutable log-variables are clipped
to `[log(smallest positive), log(dtype.max) / 8]` before exponentiation,
but the clip applied before `tf.exp` has upper bound `log(dtype.max)`
without the division by 8: with `log(smallest positive) = -103` and
`log(dtype.max) = 88`, a variable value of `80` survives the pre-exp clip
unchanged even though it exceeds `88 / 8`. -/
theorem C9_counterexample :
    optimizable_log_read 80 (-103) 88 = 80 ∧
      ¬(optimizable_log_read 80 (-103) 88 ≤ 88 / 8) := by
  have h1 : optimizable_log_read 80 (-103) 88 = 80 := by
    unfold optimizable_log_read clip_by_value
    rw [max_eq_left (by norm_num), min_eq_left (by norm_num)]
  refine ⟨h1, ?_⟩
  rw [h1]
  norm_num

/-- C9 as amended: the variable initial value is clipped to
`[log 1, log(dtype.max) / 8]`, and the value read back before
exponentiation is clipped to `[log(smallest positive), log(dtype.max)]`. -/
theorem C9_clip_ranges_amended
    (var_value log_value log_smallest_pos log_dtype_max : ℚ)
    (h1 : log_smallest_pos ≤ log_dtype_max) (h2 : 0 ≤ log_dtype_max / 8) :
    (log_smallest_pos ≤ optimizable_log_read var_value log_smallest_pos log_dtype_max ∧
      optimizable_log_read var_value log_smallest_pos log_dtype_max ≤ log_dtype_max)
    ∧ (0 ≤ optimizable_log_init log_value log_dtype_max ∧
      optimizable_log_init log_value log_dtype_max ≤ log_dtype_max / 8) := by
  refine ⟨⟨?_, ?_⟩, ?_, ?_⟩
  · exact le_min (le_max_right _ _) h1
  · exact min_le_right _ _
  · exact le_min (le_max_right _ _) h2
  · exact min_le_right _ _

/-- Witness for the amended C9 at concrete clip bounds. -/
theorem C9_witness :
    ((-103 : ℚ) ≤ optimizable_log_read 80 (-103) 88 ∧
      optimizable_log_read 80 (-103) 88 ≤ 88)
    ∧ ((0 : ℚ) ≤ optimizable_log_init 3 88 ∧
      optimizable_log_init 3 88 ≤ 88 / 8) :=
  C9_clip_ranges_amended 80 3 (-103) 88 (by norm_num) (by norm_num)

/-- C2 counterexample: the claim says training stops at a window boundary
exactly when the t-test p-value is below the threshold, but with p-value 1
and threshold 5 (so p-value below threshold) at the boundary step 4 of
window size 2 with finite windows, `should_stop` returns false: the source
returns `not pval < stopping_criteria`, i.e. it keeps training while the
p-value is small. -/
theorem C2_counterexample :
    should_stop (fun _ _ => 1) "t_test" 5
        [NpVal.fin 1, NpVal.fin 2] [NpVal.fin 3, NpVal.fin 4] 4 = false
    ∧ ((1 : ℚ) < 5) := by decide

/-- C2 as amended: at a window boundary with a fully finite previous
window, the `t_test` criterion stops exactly when the p-value is NOT below
the threshold (training continues while the p-value is below it). -/
theorem C2_t_test_stop_rule_amended (welch : List NpVal → List NpVal → ℚ)
    (stopping_criteria : ℚ) (previous_loss_hist loss_hist : List NpVal)
    (step : ℕ) (hstep : step % loss_hist.length = 0)
    (hfin : previous_loss_hist.any NpVal.isInf = false) :
    should_stop welch "t_test" stopping_criteria previous_loss_hist loss_hist step =
      !(decide (welch previous_loss_hist loss_hist < stopping_criteria)) := by
  simp [should_stop, hstep, hfin]

/-- Witness for the amended C2 at a concrete window boundary. -/
theorem C2_witness :
    should_stop (fun _ _ => 1) "t_test" 5
        [NpVal.fin 7, NpVal.fin 8] [NpVal.fin 9, NpVal.fin 10] 6 =
      !(decide ((fun (_ _ : List NpVal) => (1 : ℚ)) [NpVal.fin 7, NpVal.fin 8]
          [NpVal.fin 9, NpVal.fin 10] < 5)) :=
  C2_t_test_stop_rule_amended (fun _ _ => 1) 5 [NpVal.fin 7, NpVal.fin 8]
    [NpVal.fin 9, NpVal.fin 10] 6 rfl rfl

/-- C4: when both parts are trained, `hessian_analytic` assembles the
per-feature 2 x 2 block matrix with aa and bb on the diagonal, ab above and
the transpose of the computed ab block below (never recomputed from
weights); when only the location part is trained it returns only the aa
block, and when only the dispersion part is trained only the bb block. -/
theorem C4_hessian_block_assembly (no nf pa pb : ℕ)
    (Waa Wbb Wab : Fin no → Fin nf → ℚ)
    (XHloc : Fin no → Fin pa → ℚ) (XHscale : Fin no → Fin pb → ℚ)
    (compute_a compute_b : Bool) :
    (compute_a = true → compute_b = true →
      hessian_analytic no nf pa pb Waa Wbb Wab XHloc XHscale compute_a compute_b =
        HessianResult.full (hessian_full_spec no nf pa pb Waa Wbb Wab XHloc XHscale))
    ∧ (compute_a = true → compute_b = false →
      hessian_analytic no nf pa pb Waa Wbb Wab XHloc XHscale compute_a compute_b =
        HessianResult.aaOnly (hessian_block no nf pa pa Waa XHloc XHloc))
    ∧ (compute_a = false → compute_b = true →
      hessian_analytic no nf pa pb Waa Wbb Wab XHloc XHscale compute_a compute_b =
        HessianResult.bbOnly (hessian_block no nf pb pb Wbb XHscale XHscale)) := by
  refine ⟨?_, ?_, ?_⟩ <;> rintro rfl rfl
  · simp only [hessian_analytic, hessian_full_spec]
    rfl
  · rfl
  · rfl

/-- Witness for C4: location-only training on a concrete one-coefficient
design returns exactly the aa block. -/
theorem C4_witness :
    hessian_analytic 1 1 1 1 (fun _ _ => 1) (fun _ _ => 2) (fun _ _ => 3)
        (fun _ _ => 1) (fun _ _ => 1) true false =
      HessianResult.aaOnly
        (hessian_block 1 1 1 1 (fun _ _ => 1) (fun _ _ => 1) (fun _ _ => 1)) :=
  (C4_hessian_block_assembly 1 1 1 1 (fun _ _ => 1) (fun _ _ => 2) (fun _ _ => 3)
    (fun _ _ => 1) (fun _ _ => 1) true false).2.1 rfl rfl

/-- C8 counterexample: supplying the unknown convergence-criterion name
`no_such_criterion` does not raise at configuration time; `train` dispatches
it into the `_train_to_convergence` loop, whose stop test then returns false
even at a window boundary with fully finite windows, so the loop runs
without a criterion-based stop. -/
theorem C8_counterexample :
    train_branch "no_such_criterion" = TrainBranch.toConvergence
    ∧ train_branch "no_such_criterion" ≠ TrainBranch.configError
    ∧ should_stop (fun _ _ => 0) "no_such_criterion" 1
        [NpVal.fin 1, NpVal.fin 2] [NpVal.fin 1, NpVal.fin 2] 4 = false := by decide

/-- C8 as amended: a missing working directory with any save/summary/export
action requested raises immediately, and an unknown parameter key raises
immediately; but an unknown convergence-criterion name is NOT rejected at
configuration time: it is dispatched to the `_train_to_convergence` loop
and its stop test never returns true. -/
theorem C8_config_errors_amended
    (wd : Option String) (s1 s2 s3 s4 s5 s6 : Option ℕ)
    (shapes : List String) (k : String) (crit : String)
    (welch : List NpVal → List NpVal → ℚ) (c : ℚ)
    (prev hist : List NpVal) (step : ℕ)
    (hwd : wd = none)
    (hact : ([s1, s2, s3, s4, s5, s6].all Option.isNone) = false)
    (hk : shapes.contains k = false)
    (hcrit : crit ∉ ["step", "all_converged_ll", "loss_change_to_last",
      "moving_average", "scaled_moving_average", "absolute_moving_average",
      "t_test"]) :
    init_validate wd s1 s2 s3 s4 s5 s6 =
      Except.error "No working_dir provided but actions saving data requested"
    ∧ get_check shapes (Sum.inl k) = Except.error ("Unknown parameter " ++ k)
    ∧ train_branch crit = TrainBranch.toConvergence
    ∧ should_stop welch crit c prev hist step = false := by
  simp only [List.mem_cons, not_or] at hcrit
  obtain ⟨h1, h2, h3, h4, h5, h6, h7, _⟩ := hcrit
  refine ⟨?_, ?_, ?_, ?_⟩
  · simp [init_validate, hwd, hact]
  · have hmem : ¬k ∈ shapes := by simpa using hk
    simp [get_check, hmem]
  · simp [train_branch, h1, h2]
  · simp [should_stop, h3, h4, h5, h6, h7]

/-- Witness for the amended C8 at concrete configuration inputs. -/
theorem C8_witness :
    init_validate none (some 5) none none none none none =
      Except.error "No working_dir provided but actions saving data requested"
    ∧ get_check ["loss"] (Sum.inl "bogus") =
      Except.error ("Unknown parameter " ++ "bogus")
    ∧ train_branch "bogus" = TrainBranch.toConvergence
    ∧ should_stop (fun _ _ => 0) "bogus" 1 [] [] 0 = false :=
  C8_config_errors_amended none (some 5) none none none none none ["loss"]
    "bogus" "bogus" (fun _ _ => 0) 1 [] [] 0 rfl rfl rfl (by decide)

/-- C6: under the `all_converged_ll` criterion a not-yet-converged feature
is newly marked converged if its relative loss improvement is below the
threshold AND the feature was actually updated, or if its location and
scale gradient norms are both below their tolerances regardless of whether
it was updated; the loss-plateau branch alone does not fire without
`features_updated` (third conjunct). -/
theorem C6_all_converged_ll_predicate
    (stopping_criteria gtol_loc gtol_scale xtol_loc xtol_scale : ℚ) (n : ℕ)
    (converged_prev features_updated : Fin n → Bool)
    (ll_prev ll_current gL gS xL xS : Fin n → ℚ) (f : Fin n)
    (hprev : converged_prev f = false) :
    ((ll_prev f - ll_current f) / ll_prev f < stopping_criteria →
      features_updated f = true →
      converged_update "all_converged_ll" stopping_criteria gtol_loc gtol_scale
        xtol_loc xtol_scale n converged_prev features_updated ll_prev ll_current
        gL gS xL xS f = true)
    ∧ (gL f < gtol_loc → gS f < gtol_scale →
      converged_update "all_converged_ll" stopping_criteria gtol_loc gtol_scale
        xtol_loc xtol_scale n converged_prev features_updated ll_prev ll_current
        gL gS xL xS f = true)
    ∧ ((¬(ll_prev f - ll_current f) / ll_prev f < stopping_criteria ∨
        features_updated f = false) →
      ¬(gL f < gtol_loc ∧ gS f < gtol_scale) →
      ¬(xL f < xtol_loc ∧ xS f < xtol_scale) →
      converged_update "all_converged_ll" stopping_criteria gtol_loc gtol_scale
        xtol_loc xtol_scale n converged_prev features_updated ll_prev ll_current
        gL gS xL xS f = false) := by
  refine ⟨?_, ?_, ?_⟩
  · intro hll hupd
    simp [converged_update, hprev, hll, hupd]
  · intro hg1 hg2
    simp [converged_update, hprev, hg1, hg2]
  · intro hll hg hx
    have hllb : (decide ((ll_prev f - ll_current f) / ll_prev f < stopping_criteria)
        && features_updated f) = false := by
      rcases hll with h | h <;> simp [h]
    have hgb : (decide (gL f < gtol_loc) && decide (gS f < gtol_scale)) = false := by
      rcases not_and_or.mp hg with h | h <;> simp [h]
    have hxb : (decide (xL f < xtol_loc) && decide (xS f < xtol_scale)) = false := by
      rcases not_and_or.mp hx with h | h <;> simp [h]
    simp [converged_update, hprev, hllb, hgb, hxb]

/-- Witness for C6: a plateaued and updated feature with large gradient and
step norms is marked converged. -/
theorem C6_witness :
    converged_update "all_converged_ll" 1 0 0 0 0 1 (fun _ => false)
      (fun _ => true) (fun _ => 1) (fun _ => 1) (fun _ => 5) (fun _ => 5)
      (fun _ => 5) (fun _ => 5) 0 = true :=
  (C6_all_converged_ll_predicate 1 0 0 0 0 1 (fun _ => false) (fun _ => true)
    (fun _ => 1) (fun _ => 1) (fun _ => 5) (fun _ => 5) (fun _ => 5) (fun _ => 5)
    0 rfl).1 (by norm_num) rfl

/-- Once a feature's converged bit is set, one more `all_converged_ll`
iteration keeps it set: the update ORs new results into the previous
mask. -/
theorem converged_update_mono (crit : String)
    (sc g1 g2 x1 x2 : ℚ) (n : ℕ) (converged_prev features_updated : Fin n → Bool)
    (ll_prev ll_current gL gS xL xS : Fin n → ℚ) (f : Fin n)
    (h : converged_prev f = true) :
    converged_update crit sc g1 g2 x1 x2 n converged_prev features_updated
      ll_prev ll_current gL gS xL xS f = true := by
  simp [converged_update, h]

/-- Folding any further iterations preserves a set converged bit. -/
theorem stage_fold_mono (crit : String) (sc g1 g2 x1 x2 : ℚ) (n : ℕ)
    (l : List (IterData n)) (st : LoopState n) (f : Fin n)
    (h : st.converged f = true) :
    (l.foldl (train_iteration crit sc g1 g2 x1 x2 n) st).converged f = true := by
  induction l generalizing st with
  | nil => exact h
  | cons it l ih =>
    exact ih _ (converged_update_mono crit sc g1 g2 x1 x2 n st.converged
      it.features_updated st.ll it.ll_current it.grad_norm_loc it.grad_norm_scale
      it.x_norm_loc it.x_norm_scale f h)

/-- C7: within one `all_converged_ll` training stage the converged mask
starts all-false (the explicit reset before the first iteration) and is
monotonic afterwards: once a feature's bit is true after `i` iterations it
is still true after any `j >= i` iterations. -/
theorem C7_converged_monotone (crit : String) (sc g1 g2 x1 x2 : ℚ) (n : ℕ)
    (ll_init : Fin n → ℚ) (iters : List (IterData n)) (i j : ℕ) (f : Fin n)
    (hij : i ≤ j)
    (h : (stage_run crit sc g1 g2 x1 x2 n ll_init (iters.take i)).converged f = true) :
    (stage_run crit sc g1 g2 x1 x2 n ll_init ([] : List (IterData n))).converged f = false
    ∧ (stage_run crit sc g1 g2 x1 x2 n ll_init (iters.take j)).converged f = true := by
  refine ⟨rfl, ?_⟩
  have htake : iters.take j = iters.take i ++ (iters.drop i).take (j - i) := by
    rw [← List.take_add]
    congr 1
    omega
  rw [htake, stage_run, List.foldl_append]
  exact stage_fold_mono crit sc g1 g2 x1 x2 n _ _ f h

/-- Witness for C7: a feature converged after the first iteration is still
converged after taking two iterations of the singleton trace. -/
theorem C7_witness :
    (stage_run "all_converged_ll" 1 1 1 1 1 1 (fun _ => 1)
      ([] : List (IterData 1))).converged 0 = false
    ∧ (stage_run "all_converged_ll" 1 1 1 1 1 1 (fun _ => 1)
        (([⟨fun _ => true, fun _ => 1, fun _ => 0, fun _ => 0, fun _ => 0,
            fun _ => 0⟩] : List (IterData 1)).take 2)).converged 0 = true :=
  C7_converged_monotone "all_converged_ll" 1 1 1 1 1 1 (fun _ => 1)
    ([⟨fun _ => true, fun _ => 1, fun _ => 0, fun _ => 0, fun _ => 0,
      fun _ => 0⟩] : List (IterData 1)) 1 2 0 (by norm_num)
    (by norm_num [stage_run, train_iteration, converged_update])

/-- Unfolding of `run_train` over one appended loss observation. -/
theorem run_train_append (N : ℕ) (l : List ℚ) (x : ℚ) :
    run_train N (l ++ [x]) = train_loop_step (run_train N l) x := by
  simp [run_train, List.foldl_append]

/-- The loss-history buffer keeps its length and the step counter counts
the observed losses. -/
theorem run_train_window_lengths (N : ℕ) (losses : List ℚ) :
    (run_train N losses).loss_hist.length = N ∧
      (run_train N losses).step = losses.length := by
  induction losses using List.reverseRecOn with
  | nil => simp [run_train, train_init_state]
  | append_singleton l x ih =>
    rw [run_train_append]
    simp [train_loop_step, ih.1, ih.2]

/-- Before the first full window of `N` steps has been observed, the
previous-window buffer still holds its initial `np.inf` fill: the only copy
that can have happened is the one at step 1, which copies the still
all-inf current buffer. -/
theorem run_train_prev_inf (N : ℕ) (hN : 1 ≤ N) (losses : List ℚ)
    (hlen : losses.length ≤ N) :
    (run_train N losses).previous_loss_hist = List.replicate N NpVal.inf := by
  induction losses using List.reverseRecOn with
  | nil => rfl
  | append_singleton l x ih =>
    have hlx : l.length + 1 ≤ N := by simpa using hlen
    have hprev := ih (by omega)
    have hstep : (run_train N l).step = l.length := (run_train_window_lengths N l).2
    have hhist : (run_train N l).loss_hist.length = N := (run_train_window_lengths N l).1
    rw [run_train_append]
    simp only [train_loop_step, hstep, hhist]
    by_cases hc : (l.length + 1) % N = 1
    · have hl0 : l.length = 0 := by
        rcases Nat.lt_or_ge (l.length + 1) N with hlt | hge
        · have := Nat.mod_eq_of_lt hlt
          omega
        · have heq : l.length + 1 = N := by omega
          rw [heq, Nat.mod_self] at hc
          omega
      have hnil : l = [] := List.length_eq_zero.mp hl0
      subst hnil
      simp [hc, run_train, train_init_state]
    · simp [hc, hprev]

/-- Setting a finite entry cannot introduce an infinity into a buffer that
has none. -/
theorem any_isInf_set_false (l : List NpVal) (i : ℕ) (q : ℚ)
    (hl : l.any NpVal.isInf = false) :
    (l.set i (NpVal.fin q)).any NpVal.isInf = false := by
  rw [List.any_eq_false] at hl ⊢
  intro a ha
  rcases List.mem_or_eq_of_mem_set ha with h | h
  · exact hl a h
  · subst h
    simp [NpVal.isInf]

/-- Loop invariant of `_train_to_convergence`: in every reachable state, if
the previous-window buffer is free of infinities then so is the current
buffer (the previous buffer is always an older copy of the current one, and
writes only replace entries with finite losses). -/
theorem run_train_hist_finite (N : ℕ) (losses : List ℚ)
    (h : (run_train N losses).previous_loss_hist.any NpVal.isInf = false) :
    (run_train N losses).loss_hist.any NpVal.isInf = false := by
  induction losses using List.reverseRecOn with
  | nil => exact h
  | append_singleton l x ih =>
    rw [run_train_append] at h ⊢
    simp only [train_loop_step] at h ⊢
    by_cases hc : ((run_train N l).step + 1) % (run_train N l).loss_hist.length = 1
    · rw [if_pos hc] at h
      exact any_isInf_set_false _ _ _ h
    · rw [if_neg hc] at h
      exact any_isInf_set_false _ _ _ (ih h)

/-- The guard of `should_stop` rejects any state whose previous window
still holds an infinity, for every criterion. -/
theorem should_stop_of_inf_prev (welch : List NpVal → List NpVal → ℚ)
    (crit : String) (c : ℚ) (prev hist : List NpVal) (step : ℕ)
    (h : prev.any NpVal.isInf = true) :
    should_stop welch crit c prev hist step = false := by
  simp [should_stop, h]

/-- C5: with any windowed criterion and window size `N >= 1`, the training
loop never stops during the first `N` steps, even if the loss plateaus from
step 1; more generally `should_stop` returns false at every reachable state
in which the two loss windows are not yet both fully finite. -/
theorem C5_no_stop_before_full_window (welch : List NpVal → List NpVal → ℚ)
    (crit : String) (c : ℚ) (N : ℕ) (losses : List ℚ) (hN : 1 ≤ N)
    (hcrit : crit ∈ ["moving_average", "scaled_moving_average",
      "absolute_moving_average", "t_test", "loss_change_to_last"]) :
    (losses.length ≤ N →
      should_stop welch crit c (run_train N losses).previous_loss_hist
        (run_train N losses).loss_hist (run_train N losses).step = false)
    ∧ (((run_train N losses).previous_loss_hist.any NpVal.isInf = true ∨
        (run_train N losses).loss_hist.any NpVal.isInf = true) →
      should_stop welch crit c (run_train N losses).previous_loss_hist
        (run_train N losses).loss_hist (run_train N losses).step = false) := by
  constructor
  · intro hlen
    apply should_stop_of_inf_prev
    rw [run_train_prev_inf N hN losses hlen]
    rw [List.any_eq_true]
    exact ⟨NpVal.inf, List.mem_replicate.mpr ⟨by omega, rfl⟩, rfl⟩
  · intro hinf
    by_cases hp : (run_train N losses).previous_loss_hist.any NpVal.isInf = true
    · exact should_stop_of_inf_prev welch crit c _ _ _ hp
    · have hp' : (run_train N losses).previous_loss_hist.any NpVal.isInf = false := by
        simpa using hp
      have hh := run_train_hist_finite N losses hp'
      rcases hinf with h | h
      · exact absurd h hp
      · rw [hh] at h
        exact absurd h (by simp)

/-- Witness for C5: with window size 2 and two plateaued losses already
observed, the stop test is still false. -/
theorem C5_witness :
    should_stop (fun _ _ => 0) "t_test" 1 (run_train 2 [1, 1]).previous_loss_hist
      (run_train 2 [1, 1]).loss_hist (run_train 2 [1, 1]).step = false :=
  (C5_no_stop_before_full_window (fun _ _ => 0) "t_test" 1 2 [1, 1]
    (by norm_num) (by decide)).1 (by decide)
